import Mathlib

/-!
Verification development for the file-attributes subsystem of the remacs
repository: a shallow embedding of `src/rust_src/src/dired.rs` (the file whose
functions carry the `lisp_fn` attribute and are exported to the host editor;
`src/rust_src/src/dired_unix.rs` is structurally identical except where noted
in comments below).

Modelling conventions:
  - Host (Emacs Lisp) tagged values are the inductive `LispVal`; lists are
    nil-terminated cons chains, as built by `lists::list`.
  - Host collaborators (`Fexpand_file_name`, `Ffind_file_name_handler`,
    `call!`, `filemode_string`, `file_attributes_c_internal`, the passwd and
    group databases, the filesystem) are fields of an `Env` record: abstract
    functions supplied by the host or the operating system.
  - Effectful calls are logged in a trace (`List Eff`) so that statements of
    the form "the stat probe did not run" are about the trace, not about
    counterfactual environments.
  - A Rust panic (a failed `unwrap` or `error!`) is modelled as `none` in an
    `Option` result: an abort, distinct from every returned host value.
  - Machine-integer casts are explicit: `toI32`/`toI64` reduce a natural
    number modulo 2 ^ 32 / 2 ^ 64 into the signed range, exactly as the Rust
    `as i32` / `as i64` casts do.
-/

/-- Host tagged values.  `time` is the (injective) result of the host
collaborator `make_lisp_time`; `int` is the numeric value handed to the host
natnum constructor (whose internal high/low splitting is below this
abstraction, values being preserved). -/
inductive LispVal where
  | nil
  | t
  | sym (s : String)
  | str (s : String)
  | int (n : Int)
  | time (sec : Int) (nsec : Int)
  | cons (head : LispVal) (tail : LispVal)
  deriving DecidableEq, Repr

namespace LispVal

/-- Lisp car: first component of a cons, nil on anything else. -/
def car : LispVal → LispVal
  | cons a _ => a
  | _ => nil

/-- Lisp cdr: second component of a cons, nil on anything else. -/
def cdr : LispVal → LispVal
  | cons _ d => d
  | _ => nil

/-- Iterated cdr. -/
def nthcdr : Nat → LispVal → LispVal
  | 0, v => v
  | n + 1, v => nthcdr n v.cdr

/-- Position `n` of a Lisp list, as the host accessor `nth` reads it. -/
def nth (n : Nat) (v : LispVal) : LispVal := (nthcdr n v).car

/-- Model of `lists::list`: a nil-terminated cons chain. -/
def list (xs : List LispVal) : LispVal := xs.foldr cons nil

/-- Model of `LispObjectExt::to_stdstring` in `dired.rs`: `as_string().unwrap()`
followed by a lossy UTF-8 read of the string bytes.  The unwrap aborts on any
non-string value, hence the `Option`. -/
def to_stdstring : LispVal → Option String
  | str s => some s
  | _ => none

/-- Model of `LispObject::symbol_or_string_as_string`: the string itself, or
the name of a symbol; aborts (host error signal) on anything else. -/
def symbol_or_string_as_string : LispVal → Option String
  | str s => some s
  | sym s => some s
  | _ => none

end LispVal

/-- Qfile_attributes, the operation tag passed to handler lookup and to the
handler call. -/
def Qfile_attributes : LispVal := LispVal.sym "file-attributes"

/-- True when the string has no interior NUL character; `CString::new`
succeeds exactly on such strings. -/
def noNul (s : String) : Bool := !(s.toList.contains (Char.ofNat 0))

/-- Model of the host collaborator `build_string`: a host string value from a
C string. -/
def build_string (s : String) : LispVal := LispVal.str s

/-- Model of `StringExt::to_bstring` in `dired.rs`:
`CString::new(s).unwrap()` then `build_string`.  The unwrap panics exactly
when the string contains an interior NUL. -/
def to_bstring (s : String) : Option LispVal :=
  if noNul s then some (build_string s) else none

/-- Model of `LispObject::from_natnum`: the host numeric constructor.  The
host splits values too large for a fixnum into high/low cells; the numeric
value is preserved, which is the level this embedding observes. -/
def from_natnum (n : Int) : LispVal := LispVal.int n

/-- Model of `time::make_lisp_time` applied to a `timespec`. -/
def make_lisp_time (sec nsec : Int) : LispVal := LispVal.time sec nsec

/-- Reduce a natural number into the signed two-complement range of width
`w`, as the Rust `as` cast between machine integers does. -/
def wrapSigned (w n : Nat) : Int :=
  let m := n % 2 ^ w
  if m < 2 ^ (w - 1) then (m : Int) else (m : Int) - 2 ^ w

/-- Rust `as i32` on a `u32` value. -/
def toI32 (n : Nat) : Int := wrapSigned 32 n

/-- Rust `as i64` on a `u64` value. -/
def toI64 (n : Nat) : Int := wrapSigned 64 n

/-- Components of a Unix path as `std::path::Path` iterates them: split on
the separator, dropping empty pieces and the `.` component.  (Paths reaching
`to_dir_f` have been expanded by the host, so prefix-less relative quirks of
the Rust iterator do not arise.) -/
def pathComponents (p : String) : List String :=
  (p.splitOn "/").filter (fun c => c != "" && c != ".")

/-- Model of `Path::file_name`: the last component, unless it is `..`. -/
def rustFileName (p : String) : Option String :=
  match (pathComponents p).getLast? with
  | none => none
  | some c => if c = ".." then none else some c

/-- Model of `Path::parent`: the path without its final component; none when
the path is a bare root or empty. -/
def rustParent (p : String) : Option String :=
  match pathComponents p with
  | [] => none
  | cs =>
    let init := cs.dropLast
    if p.startsWith "/" then some ("/" ++ String.intercalate "/" init)
    else if init.isEmpty then some "" else some (String.intercalate "/" init)

/-- Split a file name at its final dot, the way `Path::file_stem` and
`Path::extension` do: no dot, or only a leading dot, means no extension. -/
def splitAtLastDot (name : String) : String × Option String :=
  let parts := name.splitOn "."
  if parts.length ≤ 1 then (name, none)
  else
    let stem := String.intercalate "." parts.dropLast
    let ext := (parts.getLast?).getD ""
    if stem = "" then (name, none) else (stem, some ext)

/-- Model of `Path::file_stem`. -/
def rustFileStem (p : String) : Option String :=
  (rustFileName p).map (fun n => (splitAtLastDot n).1)

/-- Model of `Path::extension`. -/
def rustExtension (p : String) : Option String :=
  (rustFileName p).bind (fun n => (splitAtLastDot n).2)

/-- Model of `StringExt::to_dir_f` in `dired.rs`: split an absolute path into
its directory part and file-name part via parent / file_stem / extension,
re-attaching a non-empty extension to the stem.  (The UTF-8 error arms of the
source cannot fire here: the embedding works on decoded strings.) -/
def to_dir_f (p : String) : String × String :=
  let dir := (rustParent p).getD ""
  let stem := (rustFileStem p).getD ""
  let ext := (rustExtension p).getD ""
  if ext = "" then (dir, stem) else (dir, stem ++ "." ++ ext)

/-- Native metadata snapshot, as `std::fs::Metadata` with the unix
`MetadataExt` accessors used by `FileAttrs::get`.  `is_dir` is
`file_type().is_dir()`; `uid`/`gid` are `u32`, the rest of the counters are
`u64`, times are `i64` seconds and nanoseconds. -/
structure Metadata where
  is_dir : Bool
  nlink : Nat
  uid : Nat
  gid : Nat
  atime : Int
  atime_nsec : Int
  mtime : Int
  mtime_nsec : Int
  ctime : Int
  ctime_nsec : Int
  size : Nat
  ino : Nat
  dev : Nat
  deriving DecidableEq, Repr

/-- The host and operating-system collaborators consumed by `dired.rs`, as
abstract functions.  `metadata` is `fs::metadata` (follows symlinks; `none` is
an I/O error), `readLink` is `fs::read_link` (`some target` exactly when the
path itself names a symlink), `getpwuid`/`getgrgid` return the entry name or
`none` when the database has no entry, `pwents` is the passwd enumeration
read by `getpwent`, and `call` is the `call!` invocation (handler, operation
tag, remaining positional arguments). -/
structure Env where
  expandFileName : LispVal → LispVal
  findFileNameHandler : LispVal → LispVal
  call : LispVal → LispVal → List LispVal → LispVal
  metadata : String → Option Metadata
  readLink : String → Option String
  getpwuid : Nat → Option String
  getgrgid : Nat → Option String
  filemodeString : String → LispVal
  cInternal : String → String → String → String → LispVal
  pwents : List String
  userRealLoginName : LispVal

/-- Trace entries: one per call to a host or operating-system collaborator. -/
inductive Eff where
  | expandFileName (p : LispVal)
  | findHandler (p : LispVal)
  | callHandler (h op : LispVal) (args : List LispVal)
  | metadata (p : String)
  | readLink (p : String)
  | getpwuid (u : Nat)
  | getgrgid (g : Nat)
  | filemodeString (p : String)
  | cInternal (name dir f idf : String)
  deriving DecidableEq, Repr

/-- The `FileAttrs` struct of `dired.rs`, field for field.  In `dired.rs` the
id fields are `i32` and size/ino/dev are `i64` (signed — see `toI32`/`toI64`
at the assignments); `dired_unix.rs` keeps them unsigned. -/
structure FileAttrs where
  use_c_internal : Bool
  abpath : String
  ftype_is_sym : Bool
  ftype_sym_path : String
  ftype_is_dir : Bool
  nlinks : Nat
  id_format : String
  idf_is_int : Bool
  idf_u_is_int : Bool
  idf_g_is_int : Bool
  idf_uid : Int
  idf_gid : Int
  idf_uname : String
  idf_gname : String
  atime_s : Int
  atime_ns : Int
  mtime_s : Int
  mtime_ns : Int
  ctime_s : Int
  ctime_ns : Int
  size : Int
  ino : Int
  dev : Int
  deriving DecidableEq, Repr

namespace FileAttrs

/-- Model of `FileAttrs::new` in `dired.rs`, with its sentinel defaults. -/
def new (abpath id_format : String) : FileAttrs :=
  { use_c_internal := false
    abpath := abpath
    ftype_is_sym := false
    ftype_sym_path := "deadbeef"
    ftype_is_dir := false
    nlinks := 0
    id_format := id_format
    idf_is_int := true
    idf_u_is_int := false
    idf_g_is_int := false
    idf_uid := -1
    idf_gid := -1
    idf_uname := "deadbeef"
    idf_gname := "deadbeef"
    atime_s := 0
    atime_ns := 0
    mtime_s := 0
    mtime_ns := 0
    ctime_s := 0
    ctime_ns := 0
    size := -1
    ino := -1
    dev := -1 }

/-- The tail of `FileAttrs::get`: times, size, inode and device copied from
the metadata (with the `as i64` casts of `dired.rs`). -/
def fillStatTail (a : FileAttrs) (md : Metadata) : FileAttrs :=
  { a with
    atime_s := md.atime
    atime_ns := md.atime_nsec
    mtime_s := md.mtime
    mtime_ns := md.mtime_nsec
    ctime_s := md.ctime
    ctime_ns := md.ctime_nsec
    size := toI64 md.size
    ino := toI64 md.ino
    dev := toI64 md.dev }

/-- Model of `FileAttrs::get` (the not-windows variant of `dired.rs`):
`fs::metadata` first (an error propagates as `none`, i.e. `Err`), then the
`fs::read_link` attempt — success marks the entry a symlink, records the
target, sets the escape hatch and returns early; otherwise the directory
flag, link count, id resolution (with the passwd/group lookups only on the
string format) and the stat tail are filled in. -/
def get (env : Env) (a : FileAttrs) : Option FileAttrs × List Eff :=
  match env.metadata a.abpath with
  | none => (none, [Eff.metadata a.abpath])
  | some md =>
    match env.readLink a.abpath with
    | some target =>
      (some { a with
                ftype_is_sym := true
                ftype_sym_path := target
                use_c_internal := true },
       [Eff.metadata a.abpath, Eff.readLink a.abpath])
    | none =>
      let a1 := { a with ftype_is_dir := md.is_dir, nlinks := md.nlink }
      let a2 := { a1 with idf_is_int := !(("string" : String) == a1.id_format) }
      if a2.idf_is_int then
        let a3 := { a2 with idf_uid := toI32 md.uid, idf_gid := toI32 md.gid }
        (some (fillStatTail a3 md), [Eff.metadata a.abpath, Eff.readLink a.abpath])
      else
        let a3 :=
          match env.getpwuid md.uid with
          | none => { a2 with idf_u_is_int := true, idf_uid := toI32 md.uid }
          | some name => { a2 with idf_uname := name }
        let a4 :=
          match env.getgrgid md.gid with
          | none => { a3 with idf_gid := toI32 md.gid, idf_g_is_int := true }
          | some name => { a3 with idf_gname := name }
        (some (fillStatTail a4 md),
         [Eff.metadata a.abpath, Eff.readLink a.abpath,
          Eff.getpwuid md.uid, Eff.getgrgid md.gid])

/-- Model of `FileAttrs::to_list`: the escape hatch forwards to the legacy C
routine `file_attributes_c_internal` with the path, its directory and
file-name parts and the id-format string; otherwise the twelve-position list
is assembled.  `none` models the `CString::new(..).unwrap()` panics on
interior NULs. -/
def to_list (env : Env) (a : FileAttrs) : Option LispVal × List Eff :=
  if a.use_c_internal then
    let df := to_dir_f a.abpath
    if noNul a.abpath then
      (some (env.cInternal a.abpath df.1 df.2 a.id_format),
       [Eff.cInternal a.abpath df.1 df.2 a.id_format])
    else (none, [])
  else
    let p0 : Option LispVal :=
      if a.ftype_is_sym then to_bstring a.ftype_sym_path
      else if a.ftype_is_dir then some LispVal.t else some LispVal.nil
    let p2 : Option LispVal :=
      if a.idf_is_int || a.idf_u_is_int then some (from_natnum a.idf_uid)
      else to_bstring a.idf_uname
    let p3 : Option LispVal :=
      if a.idf_is_int || a.idf_g_is_int then some (from_natnum a.idf_gid)
      else to_bstring a.idf_gname
    match p0 with
    | none => (none, [])
    | some v0 =>
      match p2 with
      | none => (none, [])
      | some v2 =>
        match p3 with
        | none => (none, [])
        | some v3 =>
          (some (LispVal.list
            [v0,
             from_natnum (toI64 a.nlinks),
             v2,
             v3,
             make_lisp_time a.atime_s a.atime_ns,
             make_lisp_time a.mtime_s a.mtime_ns,
             make_lisp_time a.ctime_s a.ctime_ns,
             from_natnum a.size,
             env.filemodeString a.abpath,
             LispVal.t,
             from_natnum a.ino,
             from_natnum a.dev]),
           [Eff.filemodeString a.abpath])

end FileAttrs

/-- Character-wise lowercasing, the model of Rust `to_lowercase` used by
`get_strings`.  (The formats the source compares against are ASCII, where the
two coincide.) -/
def strLower (s : String) : String := String.mk (s.toList.map Char.toLower)

/-- Model of `get_strings` in `dired.rs`: unwrap the path as a string; a nil
id-format becomes the marker `NOTstring`, anything else goes through
`symbol_or_string_as_string` and is lowercased. -/
def get_strings (abpath id_format : LispVal) : Option (String × String) :=
  match abpath.to_stdstring with
  | none => none
  | some abpath_string =>
    if id_format = LispVal.nil then some (abpath_string, "NOTstring")
    else
      match id_format.symbol_or_string_as_string with
      | none => none
      | some idf_sym_s => some (abpath_string, strLower idf_sym_s)

/-- Model of `file_attributes_common`: build the `FileAttrs`, run `get`; an
I/O error yields `Qnil`, otherwise the record lowers itself via `to_list`. -/
def file_attributes_common (env : Env) (abpath id_format : LispVal) :
    Option LispVal × List Eff :=
  match get_strings abpath id_format with
  | none => (none, [])
  | some (abpath_s, idf_s) =>
    match FileAttrs.get env (FileAttrs.new abpath_s idf_s) with
    | (none, tr) => (some LispVal.nil, tr)
    | (some attrs, tr) =>
      let r := FileAttrs.to_list env attrs
      (r.1, tr ++ r.2)

/-- Model of the `lisp_fn` entry `file_attributes`: expand the file name,
look for a handler; a non-nil handler is called with the operation tag and
either one or two positional arguments (the nil id-format — an absent
optional argument — drops the second), short-circuiting everything else;
otherwise delegate to `file_attributes_common`. -/
def file_attributes (env : Env) (filename id_format : LispVal) :
    Option LispVal × List Eff :=
  let fnexp := env.expandFileName filename
  let handler := env.findFileNameHandler fnexp
  if handler ≠ LispVal.nil then
    if id_format ≠ LispVal.nil then
      (some (env.call handler Qfile_attributes [fnexp, id_format]),
       [Eff.expandFileName filename, Eff.findHandler fnexp,
        Eff.callHandler handler Qfile_attributes [fnexp, id_format]])
    else
      (some (env.call handler Qfile_attributes [fnexp]),
       [Eff.expandFileName filename, Eff.findHandler fnexp,
        Eff.callHandler handler Qfile_attributes [fnexp]])
  else
    let r := file_attributes_common env fnexp id_format
    (r.1, [Eff.expandFileName filename, Eff.findHandler fnexp] ++ r.2)

/-- Model of `file_attributes_internal` (used by
directory-files-and-attributes): concatenate dirname, a separator and
filename — each unwrapped as a string, an abort (`none`) on any non-string —
and delegate to `file_attributes_common` directly, with no handler lookup. -/
def file_attributes_internal (env : Env) (dirname filename id_format : LispVal) :
    Option LispVal × List Eff :=
  match dirname.to_stdstring with
  | none => (none, [])
  | some d =>
    match filename.to_stdstring with
    | none => (none, [])
    | some f => file_attributes_common env (LispVal.str (d ++ "/" ++ f)) id_format

/-- Model of `get_users` (the not-windows variant).  The passwd database has
a process-global cursor: the `getpwent` loop reads every entry from the
current cursor to the end, `endpwent` then resets the cursor to zero on every
exit path.  An empty enumeration falls back to the real login name. -/
def get_users (env : Env) (cursor : Nat) : LispVal × Nat :=
  let unames := (env.pwents.drop cursor).map build_string
  let unames := if unames.isEmpty then [env.userRealLoginName] else unames
  (LispVal.list unames, 0)

/-- Model of the `lisp_fn` entry `system_users`, which forwards to
`get_users`. -/
def system_users (env : Env) (cursor : Nat) : LispVal × Nat :=
  get_users env cursor


/-! ## Helper lemmas: trace shapes -/

/-- Every effect `FileAttrs.get` can emit is a stat probe or an id lookup. -/
lemma mem_get_trace (env : Env) (a : FileAttrs) (e : Eff)
    (he : e ∈ (FileAttrs.get env a).2) :
    e = Eff.metadata a.abpath ∨ e = Eff.readLink a.abpath
      ∨ (∃ u, e = Eff.getpwuid u) ∨ (∃ g, e = Eff.getgrgid g) := by
  unfold FileAttrs.get at he
  rcases h1 : env.metadata a.abpath with _ | md <;> simp only [h1] at he
  · simp only [List.mem_singleton] at he
    exact Or.inl he
  · rcases h2 : env.readLink a.abpath with _ | t <;> simp only [h2] at he
    · by_cases h3 : (!(("string" : String) == a.id_format)) = true
      · simp [h3] at he
        rcases he with rfl | rfl
        · exact Or.inl rfl
        · exact Or.inr (Or.inl rfl)
      · simp [h3] at he
        rcases he with rfl | rfl | rfl | rfl
        · exact Or.inl rfl
        · exact Or.inr (Or.inl rfl)
        · exact Or.inr (Or.inr (Or.inl ⟨md.uid, rfl⟩))
        · exact Or.inr (Or.inr (Or.inr ⟨md.gid, rfl⟩))
    · simp at he
      rcases he with rfl | rfl
      · exact Or.inl rfl
      · exact Or.inr (Or.inl rfl)

/-- Every effect `FileAttrs.to_list` can emit is the legacy escalation or the
mode-string call. -/
lemma mem_to_list_trace (env : Env) (a : FileAttrs) (e : Eff)
    (he : e ∈ (FileAttrs.to_list env a).2) :
    (∃ n d f i, e = Eff.cInternal n d f i) ∨ (∃ p, e = Eff.filemodeString p) := by
  unfold FileAttrs.to_list at he
  split at he
  · split at he
    · exact Or.inl ⟨_, _, _, _, by simpa using he⟩
    · simp at he
  · repeat first
      | exact Or.inr ⟨_, by simpa using he⟩
      | split at he
      | simp at he

/-- Every effect of `file_attributes_common` comes from the probe, the id
resolver or the lowering: in particular there is no handler lookup and no
handler call. -/
lemma mem_common_trace (env : Env) (abpath id_format : LispVal) (e : Eff)
    (he : e ∈ (file_attributes_common env abpath id_format).2) :
    (∃ p, e = Eff.metadata p) ∨ (∃ p, e = Eff.readLink p)
      ∨ (∃ u, e = Eff.getpwuid u) ∨ (∃ g, e = Eff.getgrgid g)
      ∨ (∃ n d f i, e = Eff.cInternal n d f i) ∨ (∃ p, e = Eff.filemodeString p) := by
  unfold file_attributes_common at he
  rcases hg : get_strings abpath id_format with _ | ⟨p, i⟩ <;> simp only [hg] at he
  · simp at he
  · rcases hga : FileAttrs.get env (FileAttrs.new p i) with ⟨o, tr⟩
    have hmem : e ∈ tr ∨ e ∈ (FileAttrs.to_list env ((o.getD (FileAttrs.new p i)))).2 := by
      rcases o with _ | attrs <;> simp only [hga] at he
      · exact Or.inl (by simpa using he)
      · simp only [List.mem_append] at he
        rcases he with he | he
        · exact Or.inl he
        · exact Or.inr (by simpa using he)
    rcases hmem with hm | hm
    · have := mem_get_trace env (FileAttrs.new p i) e (by rw [hga]; exact hm)
      rcases this with h | h | ⟨u, h⟩ | ⟨g, h⟩
      · exact Or.inl ⟨_, h⟩
      · exact Or.inr (Or.inl ⟨_, h⟩)
      · exact Or.inr (Or.inr (Or.inl ⟨u, h⟩))
      · exact Or.inr (Or.inr (Or.inr (Or.inl ⟨g, h⟩)))
    · have := mem_to_list_trace env (o.getD (FileAttrs.new p i)) e hm
      rcases this with ⟨n, d, f, i2, h⟩ | ⟨q, h⟩
      · exact Or.inr (Or.inr (Or.inr (Or.inr (Or.inl ⟨n, d, f, i2, h⟩))))
      · exact Or.inr (Or.inr (Or.inr (Or.inr (Or.inr ⟨q, h⟩))))

/-! ## Concrete environments used by witnesses and counterexamples -/

/-- A base host environment with trivial collaborators; per-claim
environments override the fields a scenario needs. -/
def baseEnv : Env :=
  { expandFileName := id
    findFileNameHandler := fun _ => LispVal.nil
    call := fun _ _ args => LispVal.int (Int.ofNat args.length)
    metadata := fun _ => none
    readLink := fun _ => none
    getpwuid := fun _ => none
    getgrgid := fun _ => none
    filemodeString := fun _ => LispVal.str "-rw-r--r--"
    cInternal := fun _ _ _ _ => LispVal.sym "legacy"
    pwents := ["root", "alice"]
    userRealLoginName := LispVal.str "me" }

/-! ## Claim C2 -/

/-- Claim C2: when the handler registry returns a non-nil handler for the
normalized path, the query returns the handler call result unchanged; the
handler receives the operation tag plus two positional arguments (path,
id-format) when id-format is non-nil and one (path) when it is nil; and the
trace holds no stat-probe and no id-resolver effect for that call. -/
theorem c2_theorem (env : Env) (filename id_format : LispVal)
    (hh : env.findFileNameHandler (env.expandFileName filename) ≠ LispVal.nil) :
    file_attributes env filename id_format =
      (some (env.call (env.findFileNameHandler (env.expandFileName filename))
          Qfile_attributes
          (if id_format ≠ LispVal.nil
            then [env.expandFileName filename, id_format]
            else [env.expandFileName filename])),
       [Eff.expandFileName filename,
        Eff.findHandler (env.expandFileName filename),
        Eff.callHandler (env.findFileNameHandler (env.expandFileName filename))
          Qfile_attributes
          (if id_format ≠ LispVal.nil
            then [env.expandFileName filename, id_format]
            else [env.expandFileName filename])])
    ∧ ∀ e ∈ (file_attributes env filename id_format).2,
        (∀ p, e ≠ Eff.metadata p) ∧ (∀ p, e ≠ Eff.readLink p)
          ∧ (∀ u, e ≠ Eff.getpwuid u) ∧ (∀ g, e ≠ Eff.getgrgid g) := by
  have h1 : file_attributes env filename id_format =
      (some (env.call (env.findFileNameHandler (env.expandFileName filename))
          Qfile_attributes
          (if id_format ≠ LispVal.nil
            then [env.expandFileName filename, id_format]
            else [env.expandFileName filename])),
       [Eff.expandFileName filename,
        Eff.findHandler (env.expandFileName filename),
        Eff.callHandler (env.findFileNameHandler (env.expandFileName filename))
          Qfile_attributes
          (if id_format ≠ LispVal.nil
            then [env.expandFileName filename, id_format]
            else [env.expandFileName filename])]) := by
    unfold file_attributes
    rw [if_pos hh]
    by_cases h2 : id_format ≠ LispVal.nil
    · rw [if_pos h2, if_pos h2]
    · rw [if_neg h2, if_neg h2]
  refine ⟨h1, ?_⟩
  intro e he
  rw [h1] at he
  simp only [List.mem_cons, List.mem_singleton, List.not_mem_nil, or_false] at he
  rcases he with rfl | rfl | rfl <;>
    exact ⟨fun p => by simp, fun p => by simp, fun u => by simp, fun g => by simp⟩

/-- Host environment for the C2 witness: a handler is registered for every
path, answering with the number of positional arguments it received. -/
def c2env : Env :=
  { baseEnv with findFileNameHandler := fun _ => LispVal.sym "tramp" }

/-- Witness for C2: with a registered handler, the supplied id-format gives a
two-argument call and the absent (nil) id-format a one-argument call, the
result being the handler result in both cases. -/
theorem c2_witness :
    c2env.findFileNameHandler (c2env.expandFileName (LispVal.str "/remote/x"))
        ≠ LispVal.nil
    ∧ (file_attributes c2env (LispVal.str "/remote/x") (LispVal.sym "string")).1
        = some (LispVal.int 2)
    ∧ (file_attributes c2env (LispVal.str "/remote/x") LispVal.nil).1
        = some (LispVal.int 1) := by
  refine ⟨by decide, ?_, ?_⟩
  · rw [(c2_theorem c2env (LispVal.str "/remote/x") (LispVal.sym "string")
      (by decide)).1]
    decide
  · rw [(c2_theorem c2env (LispVal.str "/remote/x") LispVal.nil (by decide)).1]
    decide

/-! ## Claim C3 -/

/-- Host environment exhibiting the id cast of `dired.rs`: a file owned by
uid 4294967294 and gid 4294967295 (large but valid u32 ids). -/
def c3env : Env :=
  { baseEnv with
    metadata := fun p =>
      if p = "/f" then
        some { is_dir := false, nlink := 1, uid := 4294967294, gid := 4294967295,
               atime := 0, atime_nsec := 0, mtime := 0, mtime_nsec := 0,
               ctime := 0, ctime_nsec := 0, size := 10, ino := 2, dev := 3 }
      else none }

/-- Claim C3, evaluated at the failing input: with the non-string format
`integer` no user or group database lookup runs (the trace shows only the
probe and the lowering), but positions 2 and 3 are NOT the raw numeric uid
and gid — `dired.rs` casts `md.uid()`/`md.gid()` through `i32`, so uid
4294967294 surfaces as -2 and gid 4294967295 as -1.  (`dired_unix.rs` keeps
the ids unsigned, which is the claimed — and intended — behavior.) -/
theorem c3_theorem :
    LispVal.nth 2
        (((file_attributes c3env (LispVal.str "/f") (LispVal.sym "integer")).1).getD
          LispVal.nil) = from_natnum (-2)
    ∧ LispVal.nth 3
        (((file_attributes c3env (LispVal.str "/f") (LispVal.sym "integer")).1).getD
          LispVal.nil) = from_natnum (-1)
    ∧ toI32 4294967294 = -2
    ∧ toI32 4294967295 = -1
    ∧ (file_attributes c3env (LispVal.str "/f") (LispVal.sym "integer")).2
        = [Eff.expandFileName (LispVal.str "/f"), Eff.findHandler (LispVal.str "/f"),
           Eff.metadata "/f", Eff.readLink "/f", Eff.filemodeString "/f"] := by
  decide

/-! ## Claim C4 -/

/-- Claim C4: whenever the metadata read fails (missing file, permission
denied, ELOOP, ...: `env.metadata p = none`), the query returns the
null-sentinel as a value rather than signalling; and this is the only
error-to-value conversion at the entry point — an abort earlier in the call
(a failed string conversion) stays an abort (`none`), not a value. -/
theorem c4_theorem (env : Env) (filename id_format : LispVal) (p i : String)
    (hh : env.findFileNameHandler (env.expandFileName filename) = LispVal.nil) :
    (get_strings (env.expandFileName filename) id_format = some (p, i) →
      env.metadata p = none →
      (file_attributes env filename id_format).1 = some LispVal.nil)
    ∧ (get_strings (env.expandFileName filename) id_format = none →
      (file_attributes env filename id_format).1 = none) := by
  constructor
  · intro hgs hmd
    simp [file_attributes, hh, file_attributes_common, hgs, FileAttrs.get,
      FileAttrs.new, hmd]
  · intro hgs
    simp [file_attributes, hh, file_attributes_common, hgs]

/-- Witness for C4: a missing file maps to the nil result; a non-string
filename (after expansion) is an abort, not a value. -/
theorem c4_witness :
    (file_attributes baseEnv (LispVal.str "/tmp/does-not-exist") LispVal.nil).1
        = some LispVal.nil
    ∧ (file_attributes baseEnv (LispVal.int 7) LispVal.nil).1 = none := by
  constructor
  · exact (c4_theorem baseEnv (LispVal.str "/tmp/does-not-exist") LispVal.nil
      "/tmp/does-not-exist" "NOTstring" (by decide)).1 (by decide) (by decide)
  · exact (c4_theorem baseEnv (LispVal.int 7) LispVal.nil "" ""
      (by decide)).2 (by decide)

/-! ## Claim C7 -/

/-- Claim C7: the directory-relative query concatenates dirname, a slash and
filename and produces exactly what the single-file core produces on that path
with that id-format; its trace holds no handler lookup. -/
theorem c7_theorem (env : Env) (s t : String) (id_format : LispVal) :
    file_attributes_internal env (LispVal.str s) (LispVal.str t) id_format
      = file_attributes_common env (LispVal.str (s ++ "/" ++ t)) id_format
    ∧ ∀ e ∈ (file_attributes_internal env (LispVal.str s) (LispVal.str t)
        id_format).2, ∀ v, e ≠ Eff.findHandler v := by
  have h1 : file_attributes_internal env (LispVal.str s) (LispVal.str t) id_format
      = file_attributes_common env (LispVal.str (s ++ "/" ++ t)) id_format := rfl
  refine ⟨h1, ?_⟩
  intro e he v
  rw [h1] at he
  rcases mem_common_trace env (LispVal.str (s ++ "/" ++ t)) id_format e he with
    ⟨p, rfl⟩ | ⟨p, rfl⟩ | ⟨u, rfl⟩ | ⟨g, rfl⟩ | ⟨n, d, f, i, rfl⟩ | ⟨p, rfl⟩ <;> simp

/-- Witness for C7 at a concrete directory and file name. -/
theorem c7_witness :
    file_attributes_internal baseEnv (LispVal.str "/a") (LispVal.str "b") LispVal.nil
      = file_attributes_common baseEnv (LispVal.str "/a/b") LispVal.nil :=
  (c7_theorem baseEnv "/a" "b" LispVal.nil).1

/-! ## Claim C8 -/

/-- Claim C8: the user enumeration always returns a non-empty list — the
empty database collapses to the one-element list holding the real login name
— and every call resets the database cursor to the start, so repeated calls
in a process re-enumerate from the beginning and agree with each other. -/
theorem c8_theorem (env : Env) (cursor : Nat) :
    (system_users env cursor).2 = 0
    ∧ system_users env ((system_users env cursor).2) = system_users env 0
    ∧ (∃ x xs, (system_users env cursor).1 = LispVal.list (x :: xs))
    ∧ (env.pwents.drop cursor = [] →
        (system_users env cursor).1 = LispVal.list [env.userRealLoginName]) := by
  refine ⟨rfl, rfl, ?_, ?_⟩
  · rcases h : env.pwents.drop cursor with _ | ⟨a, l⟩
    · exact ⟨env.userRealLoginName, [], by simp [system_users, get_users, h]⟩
    · exact ⟨build_string a, l.map build_string,
        by simp [system_users, get_users, h]⟩
  · intro h
    simp [system_users, get_users, h]

/-- Witness for C8: an exhausted cursor falls back to the login name, and the
cursor always comes back to zero. -/
theorem c8_witness :
    (system_users baseEnv 5).1 = LispVal.list [baseEnv.userRealLoginName]
    ∧ (system_users baseEnv 0).2 = 0 :=
  ⟨(c8_theorem baseEnv 5).2.2.2 (by decide), (c8_theorem baseEnv 0).1⟩

/-! ## Claim C10 -/

/-- Claim C10: the string conversion used on the directory-relative query
arguments succeeds exactly on host string values; a non-string dirname or
filename makes the query abort (the modelled unwrap panic), and on string
arguments the conversion is total, returning the underlying string. -/
theorem c10_theorem (env : Env) (dirname filename id_format : LispVal) :
    (∀ v : LispVal, (LispVal.to_stdstring v).isSome = true ↔ ∃ s, v = LispVal.str s)
    ∧ (LispVal.to_stdstring dirname = none ∨ LispVal.to_stdstring filename = none →
        file_attributes_internal env dirname filename id_format = (none, []))
    ∧ (∀ s : String, LispVal.to_stdstring (LispVal.str s) = some s) := by
  refine ⟨?_, ?_, fun s => rfl⟩
  · intro v
    cases v <;> simp [LispVal.to_stdstring]
  · intro h
    rcases h with h | h
    · simp [file_attributes_internal, h]
    · rcases h2 : dirname.to_stdstring with _ | d
      · simp [file_attributes_internal, h2]
      · simp [file_attributes_internal, h2, h]

/-- Witness for C10: an integer dirname aborts the directory-relative query;
a string converts totally. -/
theorem c10_witness :
    file_attributes_internal baseEnv (LispVal.int 1) (LispVal.str "x") LispVal.nil
      = (none, [])
    ∧ LispVal.to_stdstring (LispVal.str "/a") = some "/a" :=
  ⟨(c10_theorem baseEnv (LispVal.int 1) (LispVal.str "x") LispVal.nil).2.1
      (Or.inl (by decide)),
   (c10_theorem baseEnv (LispVal.int 1) (LispVal.str "x") LispVal.nil).2.2 "/a"⟩

/-! ## Helper lemmas: list positions -/

/-- Position 0 of a lowered list is its first element. -/
lemma nth0_list (v0 : LispVal) (rest : List LispVal) :
    LispVal.nth 0 (LispVal.list (v0 :: rest)) = v0 := rfl

/-- Position 2 of a lowered list is its third element. -/
lemma nth2_list (v0 v1 v2 : LispVal) (rest : List LispVal) :
    LispVal.nth 2 (LispVal.list (v0 :: v1 :: v2 :: rest)) = v2 := rfl

/-- Position 3 of a lowered list is its fourth element. -/
lemma nth3_list (v0 v1 v2 v3 : LispVal) (rest : List LispVal) :
    LispVal.nth 3 (LispVal.list (v0 :: v1 :: v2 :: v3 :: rest)) = v3 := rfl

/-! ## Claim C1 -/

/-- Host environment with a dangling symlink at `/tmp/L`: the link-read
succeeds with target `/tmp/target`, but the follow-mode metadata read fails
(the target is missing), as `fs::metadata` does on a dangling link. -/
def c1env : Env :=
  { baseEnv with
    readLink := fun p => if p = "/tmp/L" then some "/tmp/target" else none }

/-- Counterexample to C1 as stated: `/tmp/L` names a symlink (its link-read
succeeds with the target string), yet the single-file query returns the
null-sentinel, not a 12-tuple carrying the target at position 0 — because
`FileAttrs::get` runs `fs::metadata` BEFORE the link-read, and on a dangling
link that first read fails. -/
theorem c1_counterexample :
    c1env.readLink "/tmp/L" = some "/tmp/target"
    ∧ (file_attributes c1env (LispVal.str "/tmp/L") LispVal.nil).1
        = some LispVal.nil := by
  decide

/-- Claim C1 as amended: the follow-mode metadata read runs first, and when
it fails (in particular on a dangling symlink) the query returns the
null-sentinel; when it succeeds and the link-read then also succeeds, the
probe classifies the entry as a symlink, records the link target, sets the
escape hatch, and its trace shows the metadata read before the link-read. -/
theorem c1_theorem (env : Env) (filename id_format : LispVal) (p i : String)
    (hh : env.findFileNameHandler (env.expandFileName filename) = LispVal.nil)
    (hgs : get_strings (env.expandFileName filename) id_format = some (p, i)) :
    (env.metadata p = none →
      (file_attributes env filename id_format).1 = some LispVal.nil)
    ∧ ((env.metadata p).isSome = true →
        ∀ t, env.readLink p = some t →
          (FileAttrs.get env (FileAttrs.new p i)).1
              = some { FileAttrs.new p i with
                         ftype_is_sym := true
                         ftype_sym_path := t
                         use_c_internal := true }
            ∧ (FileAttrs.get env (FileAttrs.new p i)).2
                = [Eff.metadata p, Eff.readLink p]) := by
  constructor
  · intro hmd
    simp [file_attributes, hh, file_attributes_common, hgs, FileAttrs.get,
      FileAttrs.new, hmd]
  · intro hmd t hrl
    rcases Option.isSome_iff_exists.mp hmd with ⟨md, hmd2⟩
    constructor <;> simp [FileAttrs.get, FileAttrs.new, hmd2, hrl]

/-- Host environment for the C1 witness: `/tmp/L` is a symlink whose target
exists, `/gone` is missing. -/
def c1wenv : Env :=
  { baseEnv with
    metadata := fun p =>
      if p = "/tmp/L" then
        some { is_dir := false, nlink := 1, uid := 0, gid := 0,
               atime := 0, atime_nsec := 0, mtime := 0, mtime_nsec := 0,
               ctime := 0, ctime_nsec := 0, size := 4, ino := 9, dev := 1 }
      else none
    readLink := fun p => if p = "/tmp/L" then some "/tmp/target" else none }

/-- Witness for the amended C1: a missing file yields nil; on a live symlink
the probe trace shows metadata first, link-read second. -/
theorem c1_witness :
    (file_attributes c1wenv (LispVal.str "/gone") LispVal.nil).1 = some LispVal.nil
    ∧ (FileAttrs.get c1wenv (FileAttrs.new "/tmp/L" "NOTstring")).2
        = [Eff.metadata "/tmp/L", Eff.readLink "/tmp/L"] := by
  constructor
  · exact (c1_theorem c1wenv (LispVal.str "/gone") LispVal.nil "/gone" "NOTstring"
      (by decide) (by decide)).1 (by decide)
  · exact ((c1_theorem c1wenv (LispVal.str "/tmp/L") LispVal.nil "/tmp/L" "NOTstring"
      (by decide) (by decide)).2 (by decide) "/tmp/target" (by decide)).2

/-! ## Claim C6 -/

/-- Claim C6: when the (first) metadata read succeeds and the link-read then
succeeds, the query result is exactly the legacy stat routine applied to the
path together with its directory part, file-name part and the id-format
string — the symlink case is always escalated, never lowered by the Rust
side itself. -/
theorem c6_theorem (env : Env) (filename id_format : LispVal) (p i t : String)
    (hh : env.findFileNameHandler (env.expandFileName filename) = LispVal.nil)
    (hgs : get_strings (env.expandFileName filename) id_format = some (p, i))
    (hmd : (env.metadata p).isSome = true)
    (hrl : env.readLink p = some t)
    (hnn : noNul p = true) :
    (file_attributes env filename id_format).1
      = some (env.cInternal p (to_dir_f p).1 (to_dir_f p).2 i) := by
  rcases Option.isSome_iff_exists.mp hmd with ⟨md, hmd2⟩
  simp [file_attributes, hh, file_attributes_common, hgs, FileAttrs.get,
    FileAttrs.new, hmd2, hrl, FileAttrs.to_list, hnn]

/-- Host environment for the C6 witness: `/tmp/L` is a symlink with a live
target, and the legacy routine tags its arguments. -/
def c6env : Env :=
  { baseEnv with
    metadata := fun q =>
      if q = "/tmp/L" then
        some { is_dir := false, nlink := 1, uid := 0, gid := 0,
               atime := 0, atime_nsec := 0, mtime := 0, mtime_nsec := 0,
               ctime := 0, ctime_nsec := 0, size := 4, ino := 9, dev := 1 }
      else none
    readLink := fun q => if q = "/tmp/L" then some "/tmp/target" else none
    cInternal := fun name dir f idf =>
      LispVal.list [LispVal.str name, LispVal.str dir, LispVal.str f,
        LispVal.str idf] }

/-- Witness for C6: the symlink query returns the legacy routine value at
the split path. -/
theorem c6_witness :
    (file_attributes c6env (LispVal.str "/tmp/L") LispVal.nil).1
      = some (c6env.cInternal "/tmp/L" (to_dir_f "/tmp/L").1 (to_dir_f "/tmp/L").2
          "NOTstring") :=
  c6_theorem c6env (LispVal.str "/tmp/L") LispVal.nil "/tmp/L" "NOTstring"
    "/tmp/target" (by decide) (by decide) (by decide) (by decide) (by decide)

/-! ## Claim C5 -/

/-- Claim C5: for a non-symlink path queried with format `string`, position 2
is a host string or an integer, and it is an integer exactly when the passwd
lookup returned nothing for that uid; likewise position 3 with the group
lookup; an id-lookup failure never makes the query itself fail.  (The
hypotheses `hu`/`hg` record that names coming from the C id databases carry
no interior NUL, which holds of every C string.) -/
theorem c5_theorem (env : Env) (filename id_format : LispVal) (p : String)
    (md : Metadata)
    (hh : env.findFileNameHandler (env.expandFileName filename) = LispVal.nil)
    (hgs : get_strings (env.expandFileName filename) id_format = some (p, "string"))
    (hmd : env.metadata p = some md)
    (hrl : env.readLink p = none)
    (hu : (env.getpwuid md.uid).all noNul = true)
    (hg : (env.getgrgid md.gid).all noNul = true) :
    ((file_attributes env filename id_format).1).isSome = true
    ∧ ((∃ s, LispVal.nth 2 (((file_attributes env filename id_format).1).getD
          LispVal.nil) = LispVal.str s)
        ∨ (∃ k, LispVal.nth 2 (((file_attributes env filename id_format).1).getD
          LispVal.nil) = LispVal.int k))
    ∧ ((∃ k, LispVal.nth 2 (((file_attributes env filename id_format).1).getD
          LispVal.nil) = LispVal.int k) ↔ env.getpwuid md.uid = none)
    ∧ ((∃ s, LispVal.nth 3 (((file_attributes env filename id_format).1).getD
          LispVal.nil) = LispVal.str s)
        ∨ (∃ k, LispVal.nth 3 (((file_attributes env filename id_format).1).getD
          LispVal.nil) = LispVal.int k))
    ∧ ((∃ k, LispVal.nth 3 (((file_attributes env filename id_format).1).getD
          LispVal.nil) = LispVal.int k) ↔ env.getgrgid md.gid = none) := by
  rcases hpw : env.getpwuid md.uid with _ | uname <;>
    rcases hgr : env.getgrgid md.gid with _ | gname <;>
    rw [hpw] at hu <;> rw [hgr] at hg <;>
    simp only [Option.all] at hu hg <;>
    cases hd : md.is_dir <;>
    simp [file_attributes, hh, file_attributes_common, hgs, FileAttrs.get,
      FileAttrs.new, FileAttrs.fillStatTail, FileAttrs.to_list, to_bstring,
      build_string, hmd, hrl, hpw, hgr, hd, hu, hg, nth2_list, nth3_list,
      from_natnum]

/-- Metadata for the C5 witness: a plain file owned by uid 7 and gid 8. -/
def c5md : Metadata :=
  { is_dir := false, nlink := 1, uid := 7, gid := 8,
    atime := 0, atime_nsec := 0, mtime := 0, mtime_nsec := 0,
    ctime := 0, ctime_nsec := 0, size := 1, ino := 1, dev := 1 }

/-- Host environment for the C5 witness: uid 7 resolves to `alice`, gid 8
has no group entry. -/
def c5env : Env :=
  { baseEnv with
    metadata := fun q => if q = "/o" then some c5md else none
    getpwuid := fun u => if u = 7 then some "alice" else none }

/-- Witness for C5: with format `string`, the resolvable uid becomes a
string and the unresolvable gid stays an integer, the query succeeding. -/
theorem c5_witness :
    ((file_attributes c5env (LispVal.str "/o") (LispVal.sym "string")).1).isSome
      = true
    ∧ ((∃ s, LispVal.nth 2 (((file_attributes c5env (LispVal.str "/o")
          (LispVal.sym "string")).1).getD LispVal.nil) = LispVal.str s)
        ∨ (∃ k, LispVal.nth 2 (((file_attributes c5env (LispVal.str "/o")
          (LispVal.sym "string")).1).getD LispVal.nil) = LispVal.int k))
    ∧ ((∃ k, LispVal.nth 2 (((file_attributes c5env (LispVal.str "/o")
          (LispVal.sym "string")).1).getD LispVal.nil) = LispVal.int k)
        ↔ c5env.getpwuid c5md.uid = none)
    ∧ ((∃ s, LispVal.nth 3 (((file_attributes c5env (LispVal.str "/o")
          (LispVal.sym "string")).1).getD LispVal.nil) = LispVal.str s)
        ∨ (∃ k, LispVal.nth 3 (((file_attributes c5env (LispVal.str "/o")
          (LispVal.sym "string")).1).getD LispVal.nil) = LispVal.int k))
    ∧ ((∃ k, LispVal.nth 3 (((file_attributes c5env (LispVal.str "/o")
          (LispVal.sym "string")).1).getD LispVal.nil) = LispVal.int k)
        ↔ c5env.getgrgid c5md.gid = none) :=
  c5_theorem c5env (LispVal.str "/o") (LispVal.sym "string") "/o" c5md
    (by decide) (by decide) (by decide) (by decide) (by decide) (by decide)

/-! ## Claim C9 -/

/-- In `FileAttrs.get` the symlink flag and the escape-hatch flag move
together: starting from flags both false, any successful probe leaves them
equal. -/
lemma get_flags (env : Env) (a a2 : FileAttrs)
    (ha1 : a.ftype_is_sym = false) (ha2 : a.use_c_internal = false)
    (h : (FileAttrs.get env a).1 = some a2) :
    a2.ftype_is_sym = a2.use_c_internal := by
  unfold FileAttrs.get at h
  rcases h1 : env.metadata a.abpath with _ | md <;> simp only [h1] at h
  · simp at h
  · rcases h2 : env.readLink a.abpath with _ | t <;> simp only [h2] at h
    · by_cases h3 : (!(("string" : String) == a.id_format)) = true
      · simp [h3] at h
        rw [← h]
        simp [FileAttrs.fillStatTail, ha1, ha2]
      · rcases h4 : env.getpwuid md.uid with _ | un <;>
          rcases h5 : env.getgrgid md.gid with _ | gn <;>
          simp [h3, h4, h5] at h <;> rw [← h] <;>
          simp [FileAttrs.fillStatTail, ha1, ha2]
    · simp at h
      rw [← h]

/-- When the escape hatch is off and the record is not marked a symlink, the
lowering puts the true-sentinel or the null-sentinel at position 0. -/
lemma to_list_pos0 (env : Env) (a : FileAttrs)
    (hsym : a.ftype_is_sym = false) (hesc : a.use_c_internal = false) :
    ∀ v, (FileAttrs.to_list env a).1 = some v →
      LispVal.nth 0 v = LispVal.t ∨ LispVal.nth 0 v = LispVal.nil := by
  intro v hv
  unfold FileAttrs.to_list at hv
  cases hd : a.ftype_is_dir <;> simp [hesc, hsym, hd] at hv <;>
    split at hv <;> try split at hv
  all_goals try simp at hv
  all_goals subst hv
  · exact Or.inr rfl
  · exact Or.inl rfl

/-- Claim C9: in every record the Rust lowering builds itself (escape hatch
off), position 0 is never a string — a successful probe sets the symlink
flag only together with the escape-hatch flag, so the link-target branch is
unreachable and position 0 is the true-sentinel or the null-sentinel. -/
theorem c9_theorem (env : Env) (p i : String) (a2 : FileAttrs)
    (hget : (FileAttrs.get env (FileAttrs.new p i)).1 = some a2)
    (hesc : a2.use_c_internal = false) :
    a2.ftype_is_sym = false
    ∧ ∀ v, (FileAttrs.to_list env a2).1 = some v →
        LispVal.nth 0 v = LispVal.t ∨ LispVal.nth 0 v = LispVal.nil := by
  have hsym : a2.ftype_is_sym = false := by
    rw [get_flags env (FileAttrs.new p i) a2 rfl rfl hget, hesc]
  exact ⟨hsym, to_list_pos0 env a2 hsym hesc⟩

/-- Host environment for the C9 witness: `/d` is a plain directory. -/
def c9env : Env :=
  { baseEnv with
    metadata := fun q =>
      if q = "/d" then
        some { is_dir := true, nlink := 2, uid := 0, gid := 0,
               atime := 0, atime_nsec := 0, mtime := 0, mtime_nsec := 0,
               ctime := 0, ctime_nsec := 0, size := 4096, ino := 2, dev := 1 }
      else none }

/-- The record the probe builds for `/d` under the numeric id format. -/
def c9attrs : FileAttrs :=
  ((FileAttrs.get c9env (FileAttrs.new "/d" "NOTstring")).1).getD
    (FileAttrs.new "" "")

/-- Witness for C9: the Rust-lowered record for a directory carries a
sentinel, not a string, at position 0. -/
theorem c9_witness :
    LispVal.nth 0 (((FileAttrs.to_list c9env c9attrs).1).getD LispVal.nil)
        = LispVal.t
    ∨ LispVal.nth 0 (((FileAttrs.to_list c9env c9attrs).1).getD LispVal.nil)
        = LispVal.nil :=
  (c9_theorem c9env "/d" "NOTstring" c9attrs (by decide) (by decide)).2
    (((FileAttrs.to_list c9env c9attrs).1).getD LispVal.nil) (by decide)
